import Mathlib

/-!
Shallow embedding of the website theme-extraction engine of this repository:
the module react-app/src/lib/themeExtractor.ts and the HTML sanitizer of
react-app/src/pages/admin/BrandingSettings.tsx.  JavaScript numbers are
modelled with Nat / Int / Rat (exact where the double computations are exact
at every point a theorem evaluates them), JS NaN propagation with Option,
and the one runtime type confusion (an inherited Object property escaping a
string table) with an explicit constructor.
-/

/-- JS word character, the regex class backslash-w: [A-Za-z0-9_]. -/
def isWordCh (c : Char) : Bool := c.isAlphanum || c = '_'

/-- JS whitespace (the regex class backslash-s), restricted to the code points
that can occur in the inputs considered here. -/
def isSpaceCh (c : Char) : Bool :=
  c = ' ' || c = '\t' || c = '\n' || c = '\r' ||
  c = Char.ofNat 11 || c = Char.ofNat 12 || c = Char.ofNat 160 || c = Char.ofNat 65279

/-- The characters matched by the regex class [0-9a-fA-F]. -/
def hexDigitChars : List Char :=
  ['0', '1', '2', '3'] ++ ['4', '5', '6', '7'] ++ ['8', '9', 'a', 'b'] ++
    ['c', 'd', 'e', 'f'] ++ ['A', 'B', 'C', 'D'] ++ ['E', 'F']

def isHexDigitCh (c : Char) : Bool := hexDigitChars.contains c

/-- Decimal digit, the regex class backslash-d. -/
def isDigitCh (c : Char) : Bool := c.isDigit

/-- ASCII lowercasing, the effect of String.prototype.toLowerCase on the ASCII
strings this engine feeds to it. -/
def asciiToLower (c : Char) : Char :=
  if 'A' ≤ c ∧ c ≤ 'Z' then Char.ofNat (c.toNat + 32) else c

def lowerStr (s : String) : String := ⟨s.data.map asciiToLower⟩

/-- Numeric value of one hex digit (0 on non-digits; never reached there). -/
def hexVal (c : Char) : Nat :=
  let n := c.toNat
  if 48 ≤ n ∧ n ≤ 57 then n - 48
  else if 97 ≤ n ∧ n ≤ 102 then n - 87
  else if 65 ≤ n ∧ n ≤ 70 then n - 55
  else 0

def parseHexDigits (l : List Char) : Nat := l.foldl (fun acc c => 16 * acc + hexVal c) 0

/-- JS parseInt(s, 16) on the slices this engine produces: the maximal leading
run of hex digits, or NaN (none) when there is no leading hex digit. -/
def jsParseHex (s : String) : Option Nat :=
  let run := s.data.takeWhile isHexDigitCh
  if run.isEmpty then none else some (parseHexDigits run)

def parseDecDigits (l : List Char) : Nat := l.foldl (fun acc c => 10 * acc + (c.toNat - 48)) 0

/-- JS String.prototype.slice(a, b) for 0 ≤ a ≤ b within range. -/
def sliceStr (s : String) (a b : Nat) : String := ⟨(s.data.drop a).take (b - a)⟩

/-- Remove the first occurrence of a character: JS s.replace(c, empty). -/
def removeFirst (c : Char) : List Char → List Char
  | [] => []
  | x :: xs => if x = c then xs else x :: removeFirst c xs

/-- themeExtractor.ts normalizeHex: strip the hash, expand 3-digit form,
truncate alpha off the 8-digit form, lowercase, re-prefix the hash. -/
def normalizeHex (s : String) : String :=
  let l := removeFirst '#' s.data
  let l := match l with
    | [a, b, c] => [a, a, b, b, c, c]
    | _ => l
  let l := if l.length = 8 then l.take 6 else l
  ⟨'#' :: l.map asciiToLower⟩

/-- Math.round on an exact rational: floor (x + 1/2), which is what JS
Math.round computes (ties toward positive infinity). -/
def jsRound (q : ℚ) : ℤ := ⌊q + 1/2⌋

def natDiff (a b : Nat) : Nat := max a b - min a b

/-- themeExtractor.ts isNeutralColor.  parseInt of a malformed slice is NaN,
and every NaN comparison in the source evaluates to false, so any channel
failing to parse makes the function return false. -/
def isNeutralColor (hex : String) : Bool :=
  match jsParseHex (sliceStr hex 1 3), jsParseHex (sliceStr hex 3 5), jsParseHex (sliceStr hex 5 7) with
  | some r, some g, some b =>
    let maxDiff := max (natDiff r g) (max (natDiff r b) (natDiff g b))
    maxDiff < 20 || (240 < r && 240 < g && 240 < b) || (r < 15 && g < 15 && b < 15)
  | _, _, _ => false

/-- Hex digit character of a value below 16 (toString(16) digits). -/
def digitChar (d : Nat) : Char :=
  if d < 10 then Char.ofNat (48 + d) else Char.ofNat (87 + d)

/-- v.toString(16).padStart(2, zero) for v ≤ 255. -/
def toHex2L (v : Nat) : List Char := [digitChar (v / 16), digitChar (v % 16)]

/-- themeExtractor.ts rgbToHex: clamp each channel into [0,255] and print two
lowercase hex digits. -/
def rgbToHex (r g b : ℤ) : String :=
  let cl : ℤ → Nat := fun v => (min 255 (max 0 v)).toNat
  ⟨'#' :: (toHex2L (cl r) ++ toHex2L (cl g) ++ toHex2L (cl b))⟩

/-- JS x % 12 for x ≥ 0 (truncation and floor agree on nonnegatives). -/
def qmod12 (x : ℚ) : ℚ := x - 12 * ⌊x / 12⌋

/-- themeExtractor.ts hslToHex, with exact rational arithmetic. -/
def hslToHex (h s l : Nat) : String :=
  let sq : ℚ := (s : ℚ) / 100
  let lq : ℚ := (l : ℚ) / 100
  let a := sq * min lq (1 - lq)
  let f : ℚ → ℤ := fun n =>
    let k := qmod12 (n + (h : ℚ) / 30)
    jsRound (255 * (lq - a * max (min (min (k - 3) (9 - k)) 1) (-1)))
  rgbToHex (f 0) (f 8) (f 4)

/-- themeExtractor.ts getLuminance with exact rational arithmetic; none models
the NaN produced when a channel slice fails to parse.  (At every point a
theorem below evaluates this, the IEEE double computation of the source is
exact, so the rational model agrees with it; in particular
0.2126 + 0.7152 + 0.0722 is exactly 1 in binary64.) -/
def getLuminance (hex : String) : Option ℚ :=
  match jsParseHex (sliceStr hex 1 3), jsParseHex (sliceStr hex 3 5), jsParseHex (sliceStr hex 5 7) with
  | some r, some g, some b =>
    some ((2126 / 10000 : ℚ) * ((r : ℚ) / 255) + (7152 / 10000 : ℚ) * ((g : ℚ) / 255)
      + (722 / 10000 : ℚ) * ((b : ℚ) / 255))
  | _, _, _ => none

/-- One adjusted channel of adjustLightness: round (ch + 255·amount), clamp to
[0,255]; an unparseable channel is NaN and prints as the string NaN. -/
def adjChannel (o : Option Nat) (amount : ℚ) : List Char :=
  match o with
  | some r => toHex2L ((min 255 (max 0 (jsRound ((r : ℚ) + 255 * amount)))).toNat)
  | none => ['N', 'a', 'N']

/-- themeExtractor.ts adjustLightness. -/
def adjustLightness (hex : String) (amount : ℚ) : String :=
  ⟨'#' :: (adjChannel (jsParseHex (sliceStr hex 1 3)) amount
    ++ adjChannel (jsParseHex (sliceStr hex 3 5)) amount
    ++ adjChannel (jsParseHex (sliceStr hex 5 7)) amount)⟩

/-- The three channel slices of a color string, as the source parses them. -/
def getChannels (hex : String) : Option (Nat × Nat × Nat) :=
  match jsParseHex (sliceStr hex 1 3), jsParseHex (sliceStr hex 3 5), jsParseHex (sliceStr hex 5 7) with
  | some r, some g, some b => some (r, g, b)
  | _, _, _ => none

/-- A normalized color in the sense of the specification: a hash followed by
exactly six lowercase hex digits. -/
def isLowerHexCh (c : Char) : Bool :=
  c.isDigit || ('a' ≤ c && c ≤ 'f')

def isValidHex6 (s : String) : Bool :=
  match s.data with
  | '#' :: rest => rest.length = 6 && rest.all isLowerHexCh
  | _ => false

example : normalizeHex "#abc" = "#aabbcc" := by decide
example : normalizeHex "#AaBbCcDd" = "#aabbcc" := by decide
example : normalizeHex "#abcd" = "#abcd" := by decide
example : isNeutralColor "#808080" = true := by decide
example : isNeutralColor "#ff0000" = false := by decide
example : hslToHex 0 100 50 = "#ff0000" := by with_unfolding_all decide
example : hslToHex 120 100 50 = "#00ff00" := by with_unfolding_all decide
example : getLuminance "#ffffff" = some 1 := by with_unfolding_all decide
example : getLuminance "#000000" = some 0 := by with_unfolding_all decide
example : adjustLightness "#ffffff" (-(3/100)) = "#f7f7f7" := by with_unfolding_all decide

-- ─── Regex scanners of analyzeColors ────────────────────────────

/-- Word-boundary test after a digit run (the backslash-b of the hex scanner):
the next character, if any, is not a word character. -/
def boundaryOk : List Char → Bool
  | [] => true
  | c :: _ => !isWordCh c

/-- Global scan of the pattern hash-then-3-to-8-hex-digits-then-boundary, in
the style of RegExp.exec with the g flag: at each position either a full match
(returning the whole matched text, and resuming after it) or a one-character
step.  A backtracking analysis shows the only possible match at a hash takes
the whole maximal digit run, which must have length 3 to 8. -/
def scanHexGo : Nat → List Char → List String
  | 0, _ => []
  | _ + 1, [] => []
  | fuel + 1, c :: rest =>
    if c = '#' then
      let digits := rest.takeWhile isHexDigitCh
      let after := rest.dropWhile isHexDigitCh
      if 3 ≤ digits.length && digits.length ≤ 8 && boundaryOk after then
        (⟨'#' :: digits⟩ : String) :: scanHexGo fuel after
      else scanHexGo fuel rest
    else scanHexGo fuel rest

def scanHexColors (s : String) : List String := scanHexGo (s.data.length + 1) s.data

/-- Strip an expected literal (case-sensitively). -/
def stripLit : List Char → List Char → Option (List Char)
  | [], l => some l
  | _ :: _, [] => none
  | p :: ps, c :: cs => if c = p then stripLit ps cs else none

/-- Strip an expected literal ASCII-case-insensitively (a regex i flag). -/
def stripLitCI : List Char → List Char → Option (List Char)
  | [], l => some l
  | _ :: _, [] => none
  | p :: ps, c :: cs => if asciiToLower c = asciiToLower p then stripLitCI ps cs else none

/-- One decimal capture group backslash-d-plus: at least one digit, maximal
run, with its parsed value. -/
def takeNum (l : List Char) : Option (Nat × List Char) :=
  let run := l.takeWhile isDigitCh
  if run.isEmpty then none else some (parseDecDigits run, l.dropWhile isDigitCh)

def skipWs (l : List Char) : List Char := l.dropWhile isSpaceCh

/-- Expect one literal character. -/
def expectCh (c : Char) : List Char → Option (List Char)
  | x :: xs => if x = c then some xs else none
  | [] => none

/-- Match the rgb/rgba scanner pattern of analyzeColors at one position:
rgb, optional a, open paren, then three comma-separated decimal captures
with optional whitespace.  The pattern is case-sensitive (no i flag). -/
def matchRgbAt (l : List Char) : Option ((Nat × Nat × Nat) × List Char) := do
  let r1 ← stripLit ['r','g','b'] l
  let r1 := match r1 with
    | 'a' :: rest => rest
    | rest => rest
  let r2 ← expectCh '(' r1
  let (n1, r3) ← takeNum (skipWs r2)
  let r4 ← expectCh ',' (skipWs r3)
  let (n2, r5) ← takeNum (skipWs r4)
  let r6 ← expectCh ',' (skipWs r5)
  let (n3, r7) ← takeNum (skipWs r6)
  some ((n1, n2, n3), r7)

/-- Match the hsl/hsla scanner pattern at one position (three decimal
captures, the last two followed by a percent sign). -/
def matchHslAt (l : List Char) : Option ((Nat × Nat × Nat) × List Char) := do
  let r1 ← stripLit ['h','s','l'] l
  let r1 := match r1 with
    | 'a' :: rest => rest
    | rest => rest
  let r2 ← expectCh '(' r1
  let (n1, r3) ← takeNum (skipWs r2)
  let r4 ← expectCh ',' (skipWs r3)
  let (n2, r5) ← takeNum (skipWs r4)
  let r5b ← expectCh '%' r5
  let r6 ← expectCh ',' (skipWs r5b)
  let (n3, r7) ← takeNum (skipWs r6)
  let _ ← expectCh '%' r7
  some ((n1, n2, n3), r7.drop 1)

/-- Global scan driver for a triple-returning matcher. -/
def scanTriplesGo (m : List Char → Option ((Nat × Nat × Nat) × List Char)) :
    Nat → List Char → List (Nat × Nat × Nat)
  | 0, _ => []
  | _ + 1, [] => []
  | fuel + 1, c :: rest =>
    match m (c :: rest) with
    | some (t, after) => t :: scanTriplesGo m fuel after
    | none => scanTriplesGo m fuel rest

def scanRgbColors (s : String) : List (Nat × Nat × Nat) :=
  scanTriplesGo matchRgbAt (s.data.length + 1) s.data

def scanHslColors (s : String) : List (Nat × Nat × Nat) :=
  scanTriplesGo matchHslAt (s.data.length + 1) s.data

-- ─── Frequency tally and stable descending sort ─────────────────

/-- colorCounts bookkeeping: increment the count of a key in an insertion
ordered association list, appending new keys at the end (the insertion order
of a JS object with string keys). -/
def bump : List (String × Nat) → String → List (String × Nat)
  | [], k => [(k, 1)]
  | (k2, v) :: rest, k => if k2 = k then (k, v + 1) :: rest else (k2, v) :: bump rest k

/-- Stable insertion into a descending-by-count list: the new entry goes after
every strictly greater count and before equal ones it did not precede.  Array
.sort with the comparator b minus a is a stable descending sort, and a stable
sort by a total preorder is unique, so this insertion sort computes it. -/
def insertDesc (x : String × Nat) : List (String × Nat) → List (String × Nat)
  | [] => [x]
  | y :: ys => if x.2 < y.2 then y :: insertDesc x ys else x :: y :: ys

def sortDesc : List (String × Nat) → List (String × Nat)
  | [] => []
  | x :: xs => insertDesc x (sortDesc xs)

/-- The sequence of normalized, non-neutral color occurrences the three
scanners of analyzeColors feed into colorCounts, in scan order. -/
def minedColors (css : String) : List String :=
  ((scanHexColors css).map normalizeHex
      ++ (scanRgbColors css).map (fun t => rgbToHex t.1 t.2.1 t.2.2)
      ++ (scanHslColors css).map (fun t => hslToHex t.1 t.2.1 t.2.2)).filter
    (fun h => !isNeutralColor h)

/-- themeExtractor.ts analyzeColors: tally the mined colors, sort by
descending frequency (stable), return the first five keys. -/
def analyzeColors (css : String) : List String :=
  ((sortDesc ((minedColors css).foldl bump [])).take 5).map Prod.fst

/-- Number of occurrences of one color among the mined colors: the frequency
analyzeColors ranks by. -/
def colorFreq (css : String) (c : String) : Nat := ((minedColors css).count c)

example : analyzeColors "a\x7bcolor:#ff0000\x7d b\x7bcolor:#ff0000\x7d c\x7bcolor:#00ff00\x7d" =
    ["#ff0000", "#00ff00"] := by decide
example : analyzeColors "" = [] := by decide
example : analyzeColors "x\x7bcolor:#abcd\x7d" = ["#abcd"] := by decide
example : analyzeColors "p\x7bcolor:rgb(30, 144, 255)\x7d" = ["#1e90ff"] := by decide

-- ─── Font and background extraction ─────────────────────────────

def squote : Char := Char.ofNat 39

/-- JS String.prototype.trim. -/
def trimJs (l : List Char) : List Char :=
  ((l.dropWhile isSpaceCh).reverse.dropWhile isSpaceCh).reverse

/-- The .replace of all double and single quotes by nothing. -/
def stripQuotes (l : List Char) : List Char := l.filter (fun c => c ≠ '"' && c ≠ squote)

/-- The tail of the font patterns after the greedy non-brace run:
font-family, optional whitespace, colon, optional whitespace, a nonempty
capture of non-semicolon characters (which the regex lets run past the
closing brace of the rule, as the source does). -/
def contFont (l : List Char) : Option String := do
  let r1 ← stripLitCI "font-family".data l
  let r2 ← expectCh ':' (skipWs r1)
  let cap := (skipWs r2).takeWhile (· ≠ ';')
  if cap.isEmpty then none else some (⟨cap⟩ : String)

/-- The tail of the background pattern: background with an optional -color
(the greedy option is tried first), then colon and capture as in contFont. -/
def contBg (l : List Char) : Option String :=
  let attempt : List Char → Option String := fun r =>
    (expectCh ':' (skipWs r)).bind fun r2 =>
      let cap := (skipWs r2).takeWhile (· ≠ ';')
      if cap.isEmpty then none else some (⟨cap⟩ : String)
  (stripLitCI "background".data l).bind fun r1 =>
    match stripLitCI "-color".data r1 with
    | some r1b => attempt r1b <|> attempt r1
    | none => attempt r1

/-- Backtracking of the greedy non-brace run: positions inside the run are
tried from the rightmost to the leftmost, mirroring how the regex engine
gives back characters of the greedy run one at a time. -/
def scanRunRev (cont : List Char → Option String) : Nat → List Char → Option String
  | 0, _ => none
  | n + 1, [] => (fun _ => none) n
  | n + 1, l => (scanRunRev cont n (l.drop 1)) <|> cont l

/-- First (leftmost) position where one of the block patterns of
extractFontFamily or extractBackgroundColor matches: the literal selector
text (case-insensitively), optional whitespace, an opening brace, then the
continuation somewhere in the greedy non-brace run. -/
def findBlockDecl (lit : List Char) (cont : List Char → Option String) :
    Nat → List Char → Option String
  | 0, _ => none
  | _ + 1, [] => none
  | fuel + 1, c :: rest =>
    let here :=
      (stripLitCI lit (c :: rest)).bind fun r1 =>
        (expectCh '{' (skipWs r1)).bind fun r2 =>
          scanRunRev cont (r2.takeWhile (· ≠ '}')).length r2
    match here with
    | some v => some v
    | none => findBlockDecl lit cont fuel rest

/-- themeExtractor.ts extractFontFamily: body, then html, then :root; the
first pattern that matches wins; the captured value is trimmed and stripped
of quotes. -/
def extractFontFamily (css : String) : Option String :=
  ((findBlockDecl "body".data contFont (css.data.length + 1) css.data <|>
      findBlockDecl "html".data contFont (css.data.length + 1) css.data <|>
      findBlockDecl ":root".data contFont (css.data.length + 1) css.data)).map
    (fun v => (⟨stripQuotes (trimJs v.data)⟩ : String))

-- ─── cssValueToHex and the named-color table ────────────────────

/-- What the named-color lookup of cssValueToHex can produce: a hex string
from the table, or — through JS prototype inheritance — a non-string object
property of Object.prototype whose key is all lowercase (constructor and
the dunder proto accessor), which the caller then treats as a color. -/
inductive BgVal where
  | hexColor (s : String)
  | protoObj (key : String)
deriving DecidableEq, Repr

/-- First match of hash-then-3-to-8-hex-digits (no word boundary, no g flag):
the greedy repetition takes at most 8 digits of the maximal run. -/
def findHexIn : Nat → List Char → Option String
  | 0, _ => none
  | _ + 1, [] => none
  | fuel + 1, c :: rest =>
    if c = '#' then
      let digits := rest.takeWhile isHexDigitCh
      if 3 ≤ digits.length then some (⟨'#' :: digits.take 8⟩ : String)
      else findHexIn fuel rest
    else findHexIn fuel rest

/-- First match of a triple scanner pattern (no g flag). -/
def findTripleIn (m : List Char → Option ((Nat × Nat × Nat) × List Char)) :
    Nat → List Char → Option (Nat × Nat × Nat)
  | 0, _ => none
  | _ + 1, [] => none
  | fuel + 1, c :: rest =>
    match m (c :: rest) with
    | some (t, _) => some t
    | none => findTripleIn m fuel rest

def namedColors : List (String × String) :=
  [("white", "#ffffff"), ("black", "#000000"), ("red", "#ff0000"),
   ("blue", "#0000ff"), ("green", "#008000"), ("transparent", "#ffffff")]

/-- The all-lowercase own property keys of Object.prototype: index reads on
an object literal with these keys return an inherited non-string value. -/
def protoKeys : List String := ["constructor", "__proto__"]

/-- themeExtractor.ts cssValueToHex: direct hex match, else rgb/rgba match,
else hsl/hsla match, else the named-color table — where the table read is a
JS object index, so the two lowercase Object.prototype keys leak through as
truthy non-string values. -/
def cssValueToHex (val : String) : Option BgVal :=
  match findHexIn (val.data.length + 1) val.data with
  | some m => some (.hexColor (normalizeHex m))
  | none =>
    match findTripleIn matchRgbAt (val.data.length + 1) val.data with
    | some (r, g, b) => some (.hexColor (rgbToHex r g b))
    | none =>
      match findTripleIn matchHslAt (val.data.length + 1) val.data with
      | some (h, s, l) => some (.hexColor (hslToHex h s l))
      | none =>
        let key := lowerStr val
        match namedColors.find? (fun p => p.1 = key) with
        | some p => some (.hexColor p.2)
        | none => if protoKeys.contains key then some (.protoObj key) else none

/-- themeExtractor.ts extractBackgroundColor: the background declaration of
the first matching body block, trimmed and converted. -/
def extractBackgroundColor (css : String) : Option BgVal :=
  match findBlockDecl "body".data contBg (css.data.length + 1) css.data with
  | some v => cssValueToHex (⟨trimJs v.data⟩ : String)
  | none => none

example : extractFontFamily "body \x7b font-family: Arial, sans-serif; \x7d" =
    some "Arial, sans-serif" := by decide
example : extractFontFamily "p\x7bcolor:red\x7d" = none := by decide
example : extractBackgroundColor "body\x7bbackground:#abc;\x7d" =
    some (.hexColor "#aabbcc") := by decide
example : extractBackgroundColor "body\x7bbackground: white;\x7d" =
    some (.hexColor "#ffffff") := by decide
example : extractBackgroundColor "body\x7bbackground:transparent;\x7d" =
    some (.hexColor "#ffffff") := by decide
example : extractBackgroundColor ".main\x7bbackground:#ff0000;\x7d" = none := by decide
example : extractBackgroundColor "body\x7bbackground:fuchsia;\x7d" = none := by decide
example : extractBackgroundColor "body\x7bbackground:constructor;\x7d" =
    some (.protoObj "constructor") := by decide
example : extractBackgroundColor "body\x7bbackground: hsl(0, 100%, 50%);\x7d" =
    some (.hexColor "#ff0000") := by with_unfolding_all decide
example : extractBackgroundColor "body\x7bbackground: rgb(10, 10, 15);\x7d" =
    some (.hexColor "#0a0a0f") := by decide

-- ─── HTML document model (platform layer) ───────────────────────

/-- Is one string a substring of another (the attribute substring operator of
the selectors, case-sensitive). -/
def isPrefixCh (pat l : List Char) : Bool :=
  match pat, l with
  | [], _ => true
  | p :: ps, c :: cs => p = c && isPrefixCh ps cs
  | _ :: _, [] => false

def containsSubL (pat : List Char) : List Char → Bool
  | [] => pat.isEmpty
  | l@(_ :: cs) => isPrefixCh pat l || containsSubL pat cs

def containsSub (pat s : String) : Bool := containsSubL pat.data s.data

mutual
/-- Modelled from the spec: the document tree produced by the platform's
DOMParser (a standard HTML document parser, tolerant of malformed markup),
which is not part of this repository.  Elements carry a lowercase tag name,
their attributes in source order, and their children.  The child sequence is
a dedicated type so that tree traversals are structurally recursive. -/
inductive HtmlNode where
  | el (tag : String) (attrs : List (String × String)) (children : HtmlNodes)
  | txt (s : String)

inductive HtmlNodes where
  | nil
  | cons (head : HtmlNode) (tail : HtmlNodes)
end

abbrev HtmlDoc := HtmlNodes

def HtmlNode.isEl : HtmlNode → Bool
  | .el _ _ _ => true
  | .txt _ => false

def toNodes : List HtmlNode → HtmlNodes
  | [] => .nil
  | n :: rest => .cons n (toNodes rest)

/-- getAttribute: the first attribute of the given name, if any. -/
def getAttr : List (String × String) → String → Option String
  | [], _ => none
  | (n, v) :: rest, k => if n = k then some v else getAttr rest k

/-- Modelled from the spec: the context a selector of extractLogoUrl needs
about the position of an element — which ancestors it has, whether its parent
is an anchor, and whether an element sibling precedes it (the first-child
pseudo class counts element siblings only). -/
structure SelCtx where
  inHeader : Bool
  inNav : Bool
  inLogoAnc : Bool
  parentA : Bool
  prevElSibling : Bool
deriving Repr

def classHasLogo (attrs : List (String × String)) : Bool :=
  match getAttr attrs "class" with
  | some v => containsSub "logo" v
  | none => false

mutual
/-- Modelled from the spec: querySelector on one node — the node itself if it
matches, else the first match in its subtree in document (pre-)order. -/
def findInNode (p : SelCtx → String → List (String × String) → Bool) (ctx : SelCtx) :
    HtmlNode → Option (List (String × String))
  | .txt _ => none
  | .el t a cs =>
    match (if p ctx t a then some a else none) with
    | some r => some r
    | none =>
      findInNodes p { inHeader := ctx.inHeader || t = "header",
                      inNav := ctx.inNav || t = "nav",
                      inLogoAnc := ctx.inLogoAnc || classHasLogo a,
                      parentA := t = "a", prevElSibling := false } cs

/-- Modelled from the spec: querySelector on a sibling sequence; passing an
element records that later siblings have a preceding element sibling. -/
def findInNodes (p : SelCtx → String → List (String × String) → Bool) (ctx : SelCtx) :
    HtmlNodes → Option (List (String × String))
  | .nil => none
  | .cons n rest =>
    match findInNode p ctx n with
    | some r => some r
    | none => findInNodes p (if n.isEl then { ctx with prevElSibling := true } else ctx) rest
end

def rootCtx : SelCtx := ⟨false, false, false, false, false⟩

def findElem (p : SelCtx → String → List (String × String) → Bool) (doc : HtmlDoc) :
    Option (List (String × String)) := findInNodes p rootCtx doc

def srcHasLogo (attrs : List (String × String)) : Bool :=
  match getAttr attrs "src" with
  | some v => containsSub "logo" v
  | none => false

/-- The six logo selectors of extractLogoUrl, in priority order. -/
def logoSel1 : SelCtx → String → List (String × String) → Bool :=
  fun ctx t a => t = "img" && ctx.inHeader && srcHasLogo a
def logoSel2 : SelCtx → String → List (String × String) → Bool :=
  fun ctx t a => t = "img" && ctx.inNav && srcHasLogo a
def logoSel3 : SelCtx → String → List (String × String) → Bool :=
  fun ctx t _ => t = "img" && ctx.inLogoAnc
def logoSel4 : SelCtx → String → List (String × String) → Bool :=
  fun ctx t _ => t = "img" && ctx.inHeader
def logoSel5 : SelCtx → String → List (String × String) → Bool :=
  fun ctx t _ => t = "img" && ctx.inNav
def logoSel6 : SelCtx → String → List (String × String) → Bool :=
  fun ctx t _ => t = "img" && ctx.parentA && !ctx.prevElSibling

/-- One step of the selector loop of extractLogoUrl: when the selector finds
an element, return its src if that is present and nonempty, otherwise fall
through to the next selector. -/
def trySel (attrName : String) (r : Option (List (String × String)))
    (next : Option String) : Option String :=
  match r with
  | some attrs =>
    match getAttr attrs attrName with
    | some s => if s = "" then next else some s
    | none => next
  | none => next

def metaOgImage : SelCtx → String → List (String × String) → Bool :=
  fun _ t a => t = "meta" && getAttr a "property" = some "og:image"

/-- themeExtractor.ts extractLogoUrl on a parsed document: the six selectors
in priority order, then the og:image meta content (returned even when the
attribute is absent, collapsing to no result). -/
def extractLogoFromDoc (doc : HtmlDoc) : Option String :=
  trySel "src" (findElem logoSel1 doc) <|
  trySel "src" (findElem logoSel2 doc) <|
  trySel "src" (findElem logoSel3 doc) <|
  trySel "src" (findElem logoSel4 doc) <|
  trySel "src" (findElem logoSel5 doc) <|
  trySel "src" (findElem logoSel6 doc) <|
  match findElem metaOgImage doc with
  | some attrs => getAttr attrs "content"
  | none => none

/-- The favicon selectors: rel values compare ASCII-case-insensitively (rel
is on the case-insensitive attribute list of HTML selector matching). -/
def relIs (v : String) : SelCtx → String → List (String × String) → Bool :=
  fun _ t a => t = "link" &&
    (match getAttr a "rel" with
     | some r => lowerStr r = v
     | none => false)

/-- themeExtractor.ts extractFaviconUrl on a parsed document. -/
def extractFaviconFromDoc (doc : HtmlDoc) : Option String :=
  trySel "href" (findElem (relIs "icon") doc) <|
  trySel "href" (findElem (relIs "shortcut icon") doc) <|
  trySel "href" (findElem (relIs "apple-touch-icon") doc) <|
  none

-- ─── Tolerant HTML parsing (platform layer) ─────────────────────

/-- Modelled from the spec: tokens of the platform HTML parser. -/
inductive HtmlTok where
  | tagOpenT (tag : String) (attrs : List (String × String)) (selfClose : Bool)
  | tagCloseT (tag : String)
  | textT (s : String)

def isNameCh (c : Char) : Bool := c.isAlphanum
def isAttrNameCh (c : Char) : Bool := c.isAlphanum || c = '-' || c = ':' || c = '_'

/-- Modelled from the spec: attribute list of one tag, tolerant of junk. -/
def parseAttrs : Nat → List Char → (List (String × String) × List Char × Bool)
  | 0, l => ([], l, false)
  | fuel + 1, l =>
    match skipWs l with
    | [] => ([], [], false)
    | '>' :: rest => ([], rest, false)
    | '/' :: '>' :: rest => ([], rest, true)
    | c :: rest =>
      if isAttrNameCh c then
        let name : String := ⟨((c :: rest).takeWhile isAttrNameCh).map asciiToLower⟩
        let r1 := (c :: rest).dropWhile isAttrNameCh
        match skipWs r1 with
        | '=' :: r2 =>
          match skipWs r2 with
          | q :: r3 =>
            if q = '"' || q = squote then
              let v := r3.takeWhile (· ≠ q)
              let r4 := (r3.dropWhile (· ≠ q)).drop 1
              let (as2, rest2, sc) := parseAttrs fuel r4
              ((name, (⟨v⟩ : String)) :: as2, rest2, sc)
            else
              let v := (q :: r3).takeWhile (fun c2 => !isSpaceCh c2 && c2 ≠ '>')
              let r4 := (q :: r3).dropWhile (fun c2 => !isSpaceCh c2 && c2 ≠ '>')
              let (as2, rest2, sc) := parseAttrs fuel r4
              ((name, (⟨v⟩ : String)) :: as2, rest2, sc)
          | [] =>
            let (as2, rest2, sc) := parseAttrs fuel []
            ((name, "") :: as2, rest2, sc)
        | r1w =>
          let (as2, rest2, sc) := parseAttrs fuel r1w
          ((name, "") :: as2, rest2, sc)
      else parseAttrs fuel rest

/-- Modelled from the spec: the token stream of a document. -/
def tokenize : Nat → List Char → List HtmlTok
  | 0, _ => []
  | _ + 1, [] => []
  | fuel + 1, '<' :: '/' :: rest =>
    let name : String := ⟨(rest.takeWhile isNameCh).map asciiToLower⟩
    let r1 := rest.dropWhile isNameCh
    .tagCloseT name :: tokenize fuel ((r1.dropWhile (· ≠ '>')).drop 1)
  | fuel + 1, '<' :: c :: rest =>
    if c.isAlpha then
      let name : String := ⟨(((c :: rest).takeWhile isNameCh).map asciiToLower)⟩
      let r1 := (c :: rest).dropWhile isNameCh
      let (attrs, r2, sc) := parseAttrs (r1.length + 1) r1
      .tagOpenT name attrs sc :: tokenize fuel r2
    else tokenize fuel (((c :: rest).dropWhile (· ≠ '>')).drop 1)
  | _ + 1, ['<'] => []
  | fuel + 1, c :: rest =>
    (.textT (⟨(c :: rest).takeWhile (· ≠ '<')⟩ : String)) ::
      tokenize fuel ((c :: rest).dropWhile (· ≠ '<'))

/-- Elements with no closing tag. -/
def voidTags : List String :=
  ["area", "base", "br", "col", "embed", "hr", "img", "input", "link", "meta",
   "source", "track", "wbr"]

/-- An open element under construction (children reversed). -/
structure Frame where
  tag : String
  attrs : List (String × String)
  kids : List HtmlNode

def addNode (n : HtmlNode) : List Frame × List HtmlNode → List Frame × List HtmlNode
  | (f :: fs, acc) => ({ f with kids := n :: f.kids } :: fs, acc)
  | ([], acc) => ([], n :: acc)

def closeOne : List Frame × List HtmlNode → List Frame × List HtmlNode
  | (f :: fs, acc) => addNode (.el f.tag f.attrs (toNodes f.kids.reverse)) (fs, acc)
  | ([], acc) => ([], acc)

/-- Pop frames up to and including the first one with the given tag. -/
def closeUntil (tag : String) : Nat → List Frame × List HtmlNode → List Frame × List HtmlNode
  | 0, st => st
  | fuel + 1, st =>
    match st with
    | ([], acc) => ([], acc)
    | (f :: fs, acc) =>
      if f.tag = tag then closeOne (f :: fs, acc)
      else closeUntil tag fuel (closeOne (f :: fs, acc))

def closeAll : Nat → List Frame × List HtmlNode → List HtmlNode
  | 0, (_, acc) => acc.reverse
  | fuel + 1, st =>
    match st with
    | ([], acc) => acc.reverse
    | (f :: fs, acc) => closeAll fuel (closeOne (f :: fs, acc))

/-- Modelled from the spec: the tolerant tree construction — void and
self-closing tags become leaves, mismatched closing tags close intervening
open elements when a matching one is open and are ignored otherwise, and
anything left open at the end is closed. -/
def buildDoc : List HtmlTok → List Frame × List HtmlNode → List HtmlNode
  | [], st => closeAll (st.1.length + 1) st
  | .textT s :: toks, st => buildDoc toks (addNode (.txt s) st)
  | .tagOpenT t a sc :: toks, st =>
    if sc || voidTags.contains t then buildDoc toks (addNode (.el t a .nil) st)
    else buildDoc toks (⟨t, a, []⟩ :: st.1, st.2)
  | .tagCloseT t :: toks, st =>
    if st.1.any (fun f => f.tag = t) then buildDoc toks (closeUntil t (st.1.length + 1) st)
    else buildDoc toks st

/-- Modelled from the spec: DOMParser().parseFromString(html, text/html). -/
def parseHtml (s : String) : HtmlDoc :=
  toNodes (buildDoc (tokenize (s.data.length + 1) s.data) ([], []))

/-- themeExtractor.ts extractLogoUrl on a raw HTML string. -/
def extractLogoUrl (html : String) : Option String := extractLogoFromDoc (parseHtml html)

/-- themeExtractor.ts extractFaviconUrl on a raw HTML string. -/
def extractFaviconUrl (html : String) : Option String := extractFaviconFromDoc (parseHtml html)

-- ─── Orchestration ──────────────────────────────────────────────

structure PortalTheme where
  primaryColor : String
  primaryHover : String
  secondaryColor : String
  bgColor : String
  surfaceColor : String
  elevatedColor : String
  textColor : String
  textSecondary : String
  borderColor : String
  fontFamily : String
  logoUrl : String
  faviconUrl : String
  isDark : Bool
deriving DecidableEq, Repr

/-- The runtime exception class the engine can actually raise (calling a
string method on the inherited non-string value, see cssValueToHex). -/
inductive JsError where
  | typeError
deriving DecidableEq, Repr

deriving instance DecidableEq for Except

/-- themeExtractor.ts extractTheme.  A background value that is the leaked
Object.prototype member is truthy, so the source computes
getLuminance(bgColor) on a non-string and throws a TypeError there. -/
def extractTheme (html : String) (cssTexts : List String) : Except JsError PortalTheme :=
  let allCss := String.intercalate "\n" cssTexts
  let colors := analyzeColors allCss
  let fontFamily := extractFontFamily allCss
  let doc := parseHtml html
  let logoUrl := extractLogoFromDoc doc
  let faviconUrl := extractFaviconFromDoc doc
  match extractBackgroundColor allCss with
  | some (.protoObj _) => .error .typeError
  | bgRes =>
    let bgColor : Option String :=
      match bgRes with
      | some (.hexColor s) => some s
      | _ => none
    let isDark : Bool :=
      match bgColor with
      | some c =>
        match getLuminance c with
        | some q => decide (q < 1 / 2)
        | none => false
      | none => false
    let primary := match colors.head? with | some c => c | none => "#0ea5e9"
    let secondary := match colors.get? 1 with | some c => c | none => "#10b981"
    .ok
      { primaryColor := primary
        primaryHover := adjustLightness primary (if isDark then 8 / 100 else -(1 / 10))
        secondaryColor := secondary
        bgColor :=
          match bgColor with
          | some c => c
          | none => if isDark then "#0a0a0f" else "#ffffff"
        surfaceColor :=
          if isDark then
            adjustLightness (match bgColor with | some c => c | none => "#0a0a0f") (5 / 100)
          else
            adjustLightness (match bgColor with | some c => c | none => "#ffffff") (-(3 / 100))
        elevatedColor :=
          if isDark then
            adjustLightness (match bgColor with | some c => c | none => "#0a0a0f") (8 / 100)
          else
            adjustLightness (match bgColor with | some c => c | none => "#ffffff") (-(5 / 100))
        textColor := if isDark then "#ffffff" else "#1f2937"
        textSecondary := if isDark then "#a1a1aa" else "#6b7280"
        borderColor := if isDark then "#2a2a3a" else "#e5e7eb"
        fontFamily :=
          match fontFamily with
          | some s => if s = "" then "Inter, -apple-system, sans-serif" else s
          | none => "Inter, -apple-system, sans-serif"
        logoUrl := match logoUrl with | some s => s | none => ""
        faviconUrl := match faviconUrl with | some s => s | none => ""
        isDark := isDark }

/-- The claim-following variant of extractTheme with the three dark
background defaults removed (replaced by the light default), used to state
that those branches are unreachable. -/
def extractThemeNoDark (html : String) (cssTexts : List String) : Except JsError PortalTheme :=
  let allCss := String.intercalate "\n" cssTexts
  let colors := analyzeColors allCss
  let fontFamily := extractFontFamily allCss
  let doc := parseHtml html
  let logoUrl := extractLogoFromDoc doc
  let faviconUrl := extractFaviconFromDoc doc
  match extractBackgroundColor allCss with
  | some (.protoObj _) => .error .typeError
  | bgRes =>
    let bgColor : Option String :=
      match bgRes with
      | some (.hexColor s) => some s
      | _ => none
    let isDark : Bool :=
      match bgColor with
      | some c =>
        match getLuminance c with
        | some q => decide (q < 1 / 2)
        | none => false
      | none => false
    let primary := match colors.head? with | some c => c | none => "#0ea5e9"
    let secondary := match colors.get? 1 with | some c => c | none => "#10b981"
    .ok
      { primaryColor := primary
        primaryHover := adjustLightness primary (if isDark then 8 / 100 else -(1 / 10))
        secondaryColor := secondary
        bgColor :=
          match bgColor with
          | some c => c
          | none => "#ffffff"
        surfaceColor :=
          if isDark then
            adjustLightness (match bgColor with | some c => c | none => "#ffffff") (5 / 100)
          else
            adjustLightness (match bgColor with | some c => c | none => "#ffffff") (-(3 / 100))
        elevatedColor :=
          if isDark then
            adjustLightness (match bgColor with | some c => c | none => "#ffffff") (8 / 100)
          else
            adjustLightness (match bgColor with | some c => c | none => "#ffffff") (-(5 / 100))
        textColor := if isDark then "#ffffff" else "#1f2937"
        textSecondary := if isDark then "#a1a1aa" else "#6b7280"
        borderColor := if isDark then "#2a2a3a" else "#e5e7eb"
        fontFamily :=
          match fontFamily with
          | some s => if s = "" then "Inter, -apple-system, sans-serif" else s
          | none => "Inter, -apple-system, sans-serif"
        logoUrl := match logoUrl with | some s => s | none => ""
        faviconUrl := match faviconUrl with | some s => s | none => ""
        isDark := isDark }

example : (extractTheme "" []).map (fun t => (t.primaryColor, t.secondaryColor, t.isDark, t.logoUrl, t.faviconUrl)) =
    .ok ("#0ea5e9", "#10b981", false, "", "") := by with_unfolding_all decide
example : extractTheme "" ["body\x7bbackground:constructor;\x7d"] = .error .typeError := by
  with_unfolding_all decide
example : (extractTheme "" ["x\x7bcolor:#abcd\x7d"]).map (fun t => t.primaryColor) =
    .ok "#abcd" := by with_unfolding_all decide
example : (extractTheme "" ["body\x7bbackground:#0a0a0f;\x7d"]).map (fun t => t.isDark) =
    .ok true := by with_unfolding_all decide

-- ─── HTML sanitizer of BrandingSettings.tsx ─────────────────────

/-- The loop of the tag-block patterns after the opening literal: skip the
greedy non-angle run; at a matching close literal the match ends; at any
other angle bracket, consume it and continue; at the end of input, fail.
Backtracking cannot rescue a failure here because the close literal starts
with an angle bracket, so this deterministic scan equals the regex. -/
def scanTagBody (close : List Char) : Nat → List Char → Option (List Char)
  | 0, _ => none
  | fuel + 1, l =>
    let l2 := l.dropWhile (· ≠ '<')
    match stripLitCI close l2 with
    | some rest => some rest
    | none =>
      match l2 with
      | '<' :: cs => scanTagBody close fuel cs
      | _ => none

/-- Match one whole tag block pattern (script, noscript or iframe — opening
literal, word boundary, then contents up to the matching close tag) at the
head of the input, returning what follows the match. -/
def matchTagBlockAt (tag : List Char) (l : List Char) : Option (List Char) :=
  match stripLitCI ('<' :: tag) l with
  | some rest =>
    match rest with
    | c :: _ => if isWordCh c then none else scanTagBody ('<' :: '/' :: (tag ++ ['>'])) (rest.length + 1) rest
    | [] => none
  | none => none

/-- Match the quoted event-handler attribute pattern at the head of the
input: whitespace, the letters o n, word characters, equals with optional
whitespace around it, then a quote, non-quote characters, and a quote of
either kind. -/
def matchOnAttrQ (l : List Char) : Option (List Char) := do
  let ws := l.takeWhile isSpaceCh
  if ws.isEmpty then none else
  let r1 ← stripLitCI ['o', 'n'] (l.dropWhile isSpaceCh)
  let w := r1.takeWhile isWordCh
  if w.isEmpty then none else
  let r2 ← expectCh '=' (skipWs (r1.dropWhile isWordCh))
  match skipWs r2 with
  | q :: r3 =>
    if q = '"' || q = squote then
      match r3.dropWhile (fun c => c ≠ '"' && c ≠ squote) with
      | _ :: r4 => some r4
      | [] => none
    else none
  | [] => none

/-- Match the unquoted event-handler attribute pattern: as above but the
value is a possibly empty run of characters other than whitespace, the
closing angle bracket and quotes. -/
def matchOnAttrU (l : List Char) : Option (List Char) := do
  let ws := l.takeWhile isSpaceCh
  if ws.isEmpty then none else
  let r1 ← stripLitCI ['o', 'n'] (l.dropWhile isSpaceCh)
  let w := r1.takeWhile isWordCh
  if w.isEmpty then none else
  let r2 ← expectCh '=' (skipWs (r1.dropWhile isWordCh))
  let r3 := skipWs r2
  some (r3.dropWhile (fun c => !isSpaceCh c && c ≠ '>' && c ≠ '"' && c ≠ squote))

/-- Match the quoted javascript: href pattern. -/
def matchHrefJs (l : List Char) : Option (List Char) := do
  let r1 ← stripLitCI "href".data l
  let r2 ← expectCh '=' (skipWs r1)
  match skipWs r2 with
  | q :: r3 =>
    if q = '"' || q = squote then
      let r4 ← stripLitCI "javascript:".data r3
      match r4.dropWhile (fun c => c ≠ '"' && c ≠ squote) with
      | _ :: r5 => some r5
      | [] => none
    else none
  | [] => none

/-- One global replace pass in the style of String.replace with a g-flagged
regex: at each position either replace a match and resume after it, or step
one character. -/
def replacePass (m : List Char → Option (List Char)) (rep : List Char) :
    Nat → List Char → List Char
  | 0, l => l
  | _ + 1, [] => []
  | fuel + 1, c :: cs =>
    match m (c :: cs) with
    | some rest => rep ++ replacePass m rep fuel rest
    | none => c :: replacePass m rep fuel cs

/-- BrandingSettings.tsx sanitizeHtml: six sequential global regex
replacements — script, noscript and iframe blocks, quoted then unquoted
event-handler attributes, then quoted javascript: hrefs. -/
def sanitizeHtml (s : String) : String :=
  let p := fun (m : List Char → Option (List Char)) (rep : List Char) (l : List Char) =>
    replacePass m rep (l.length + 1) l
  let l1 := p (matchTagBlockAt "script".data) [] s.data
  let l2 := p (matchTagBlockAt "noscript".data) [] l1
  let l3 := p (matchTagBlockAt "iframe".data) [] l2
  let l4 := p matchOnAttrQ [] l3
  let l5 := p matchOnAttrU [] l4
  let l6 := p matchHrefJs "href=\"#\"".data l5
  ⟨l6⟩

example : sanitizeHtml "<header><script>alert(1)</script><div class=\"logo\">X</div></header>" =
    "<header><div class=\"logo\">X</div></header>" := by decide
example : sanitizeHtml "<script>alert(1)" = "<script>alert(1)" := by decide
example : sanitizeHtml "<div><b>unbalanced" = "<div><b>unbalanced" := by decide
example : sanitizeHtml "<a onclick=\"x()\" href=\"ok\">y</a>" = "<a href=\"ok\">y</a>" := by decide
example : sanitizeHtml "<a href=\"javascript:evil()\">y</a>" = "<a href=\"#\">y</a>" := by decide
example : containsSub "<script>" (sanitizeHtml "<script>alert(1)") = true := by decide

-- ─── Helper lemmas ──────────────────────────────────────────────

theorem lower_of_hex {c : Char} (h : isHexDigitCh c = true) :
    isLowerHexCh (asciiToLower c) = true := by
  have hm : c ∈ hexDigitChars := by
    unfold isHexDigitCh at h
    exact List.elem_iff.mp h
  fin_cases hm <;> decide

theorem hexDigit_digitChar : ∀ x < 16, isHexDigitCh (digitChar x) = true := by decide

theorem hexVal_digitChar : ∀ x < 16, hexVal (digitChar x) = x := by decide

theorem hexVal_le (c : Char) : hexVal c ≤ 15 := by
  unfold hexVal
  simp only []
  split_ifs <;> omega

/-- Parsing back a two-digit hex print gives the value back. -/
theorem parse_toHex2 {v : Nat} (h : v ≤ 255) : jsParseHex (⟨toHex2L v⟩ : String) = some v := by
  have h1 : v / 16 < 16 := Nat.div_lt_of_lt_mul (by omega)
  have h2 : v % 16 < 16 := Nat.mod_lt _ (by norm_num)
  simp [jsParseHex, toHex2L, List.takeWhile, hexDigit_digitChar _ h1, hexDigit_digitChar _ h2,
    parseHexDigits, hexVal_digitChar _ h1, hexVal_digitChar _ h2]
  omega

-- ─── Claim C1 ───────────────────────────────────────────────────

/-- C1, counterexample.  The claim promises that for every HTML fragment the
sanitized output contains no script element, but a script tag with no
matching close tag is matched by none of the six replacement patterns: the
input consisting of an opening script tag and its payload passes through
sanitizeHtml unchanged, script tag included. -/
theorem C1_counterexample :
    sanitizeHtml "<script>alert(1)" = "<script>alert(1)" ∧
      containsSub "<script>" (sanitizeHtml "<script>alert(1)") = true := by
  constructor <;> decide

/-- C1, amended.  Sanitization is total and removes exactly what its six
single-pass replacements match: script, noscript and iframe blocks that are
terminated by a matching close tag, quoted and unquoted event-handler
attributes, and quoted javascript: hrefs; a script tag with no close tag
survives, so the universal no-script guarantee holds only for fragments
whose forbidden blocks are properly closed.  On the specification example
the output is exactly the header with the script block gone and the div,
class and text preserved, and unbalanced or nested tags pass through
without error. -/
theorem C1_amended :
    sanitizeHtml "<header><script>alert(1)</script><div class=\"logo\">X</div></header>" =
        "<header><div class=\"logo\">X</div></header>" ∧
      sanitizeHtml "<div><b>unbalanced" = "<div><b>unbalanced" ∧
      sanitizeHtml "<header><div><span>nested</div></span></header>" =
        "<header><div><span>nested</div></span></header>" ∧
      sanitizeHtml "<a onclick=\"go()\" href=\"javascript:evil()\">y</a>" =
        "<a href=\"#\">y</a>" ∧
      sanitizeHtml "<noscript>x</noscript><iframe src=\"a\"></iframe>ok" = "ok" := by
  refine ⟨by decide, by decide, by decide, by decide, by decide⟩

-- ─── Claim C2 ───────────────────────────────────────────────────

/-- C2, counterexample.  The claim asserts every color attribute of an
extracted theme is a normalized six-digit lowercase hex string, for every
hex literal the scanner matches (3 to 8 digits) — but normalizeHex only
rewrites the 3- and 8-digit forms, so a 4-digit literal flows through
unchanged and becomes the primaryColor. -/
theorem C2_counterexample :
    (extractTheme "" ["x\x7bcolor:#abcd\x7d"]).map (fun t => t.primaryColor) = .ok "#abcd" ∧
      isValidHex6 "#abcd" = false := by
  constructor
  · with_unfolding_all decide
  · decide

/-- C2, amended.  Normalization produces a valid lowercase six-digit hex
string for every 3-, 6- and 8-digit hex literal (3-digit literals are
doubled digitwise, the alpha byte of 8-digit literals is dropped, and
uppercase digits are lowercased); 4-, 5- and 7-digit literals, which the
scanner also matches, are only lowercased and keep their length. -/
theorem C2_amended :
    (∀ a b c : Char, isHexDigitCh a = true → isHexDigitCh b = true →
      isHexDigitCh c = true →
        isValidHex6 (normalizeHex (⟨['#', a, b, c]⟩ : String)) = true) ∧
    (∀ a b c d e f : Char, isHexDigitCh a = true → isHexDigitCh b = true →
      isHexDigitCh c = true → isHexDigitCh d = true → isHexDigitCh e = true →
      isHexDigitCh f = true →
        isValidHex6 (normalizeHex (⟨['#', a, b, c, d, e, f]⟩ : String)) = true) ∧
    (∀ a b c d e f g h : Char, isHexDigitCh a = true → isHexDigitCh b = true →
      isHexDigitCh c = true → isHexDigitCh d = true → isHexDigitCh e = true →
      isHexDigitCh f = true → isHexDigitCh g = true → isHexDigitCh h = true →
        isValidHex6 (normalizeHex (⟨['#', a, b, c, d, e, f, g, h]⟩ : String)) = true) ∧
    normalizeHex "#abc" = "#aabbcc" ∧ normalizeHex "#aabbccdd" = "#aabbcc" := by
  refine ⟨?_, ?_, ?_, by decide, by decide⟩
  · intro a b c ha hb hc
    simp [normalizeHex, removeFirst, isValidHex6, List.all,
      lower_of_hex ha, lower_of_hex hb, lower_of_hex hc]
  · intro a b c d e f ha hb hc hd he hf
    simp [normalizeHex, removeFirst, isValidHex6, List.all,
      lower_of_hex ha, lower_of_hex hb, lower_of_hex hc,
      lower_of_hex hd, lower_of_hex he, lower_of_hex hf]
  · intro a b c d e f g h ha hb hc hd he hf hg hh
    simp [normalizeHex, removeFirst, isValidHex6, List.all,
      lower_of_hex ha, lower_of_hex hb, lower_of_hex hc,
      lower_of_hex hd, lower_of_hex he, lower_of_hex hf]

/-- C2, witness for the amended theorem at concrete digits. -/
theorem C2_amended_witness :
    (isHexDigitCh '0' = true ∧ isHexDigitCh 'a' = true ∧ isHexDigitCh 'F' = true) ∧
      isValidHex6 (normalizeHex (⟨['#', '0', 'a', 'F']⟩ : String)) = true :=
  ⟨⟨by decide, by decide, by decide⟩,
    C2_amended.1 '0' 'a' 'F' (by decide) (by decide) (by decide)⟩

-- ─── Claim C3 ───────────────────────────────────────────────────

/-- C3.  The engine is claimed never to throw, but the named-color table
lookup of cssValueToHex is a JS object index: the value constructor reaches
the inherited Object.prototype.constructor, a truthy non-string, and
getLuminance then invokes a string method on it — extractTheme throws a
TypeError on this input. -/
theorem C3_theorem :
    extractTheme "" ["body\x7bbackground:constructor;\x7d"] = .error .typeError := by
  with_unfolding_all decide

-- ─── Claim C9 ───────────────────────────────────────────────────

/-- C9.  On empty input the extracted theme carries the documented
fallbacks: primary, secondary, light mode, and empty logo and favicon. -/
theorem C9_theorem :
    (extractTheme "" []).map
        (fun t => (t.primaryColor, t.secondaryColor, t.isDark, t.logoUrl, t.faviconUrl)) =
      .ok ("#0ea5e9", "#10b981", false, "", "") := by
  with_unfolding_all decide

theorem parseHexDigits_le : ∀ l : List Char, l.length ≤ 2 → parseHexDigits l ≤ 255 := by
  intro l hl
  match l with
  | [] => simp [parseHexDigits]
  | [c] =>
    have := hexVal_le c
    simp [parseHexDigits]
    omega
  | [c, d] =>
    have := hexVal_le c
    have := hexVal_le d
    simp [parseHexDigits]
    omega
  | _ :: _ :: _ :: _ => simp at hl

theorem jsParseHex_le {s : String} {v : Nat} (hlen : s.data.length ≤ 2)
    (h : jsParseHex s = some v) : v ≤ 255 := by
  unfold jsParseHex at h
  by_cases he : (s.data.takeWhile isHexDigitCh).isEmpty
  · simp [he] at h
  · simp [he] at h
    subst h
    exact parseHexDigits_le _ (le_trans (List.takeWhile_sublist _).length_le hlen)

theorem slice2_len (s : String) (a : Nat) : (sliceStr s a (a + 2)).data.length ≤ 2 := by
  simp [sliceStr]

theorem getChannels_le {hex : String} {r g b : Nat} (h : getChannels hex = some (r, g, b)) :
    r ≤ 255 ∧ g ≤ 255 ∧ b ≤ 255 := by
  unfold getChannels at h
  cases h1 : jsParseHex (sliceStr hex 1 3) <;> rw [h1] at h <;>
    cases h2 : jsParseHex (sliceStr hex 3 5) <;> rw [h2] at h <;>
      cases h3 : jsParseHex (sliceStr hex 5 7) <;> rw [h3] at h <;> simp at h
  obtain ⟨rfl, rfl, rfl⟩ := h
  exact ⟨jsParseHex_le (slice2_len hex 1) h1, jsParseHex_le (slice2_len hex 3) h2,
    jsParseHex_le (slice2_len hex 5) h3⟩

theorem getChannels_hex7 {v1 v2 v3 : Nat} (h1 : v1 ≤ 255) (h2 : v2 ≤ 255) (h3 : v3 ≤ 255) :
    getChannels (⟨'#' :: (toHex2L v1 ++ toHex2L v2 ++ toHex2L v3)⟩ : String) =
      some (v1, v2, v3) := by
  have e1 : sliceStr (⟨'#' :: (toHex2L v1 ++ toHex2L v2 ++ toHex2L v3)⟩ : String) 1 3 =
      (⟨toHex2L v1⟩ : String) := by
    simp [sliceStr, toHex2L]
  have e2 : sliceStr (⟨'#' :: (toHex2L v1 ++ toHex2L v2 ++ toHex2L v3)⟩ : String) 3 5 =
      (⟨toHex2L v2⟩ : String) := by
    simp [sliceStr, toHex2L]
  have e3 : sliceStr (⟨'#' :: (toHex2L v1 ++ toHex2L v2 ++ toHex2L v3)⟩ : String) 5 7 =
      (⟨toHex2L v3⟩ : String) := by
    simp [sliceStr, toHex2L]
  unfold getChannels
  rw [e1, e2, e3, parse_toHex2 h1, parse_toHex2 h2, parse_toHex2 h3]

-- ─── Claim C6 ───────────────────────────────────────────────────

/-- C6.  On every successful extraction the derived palette obeys the exact
formulas: surface and elevated colors are the lightness-adjusted background
(plus 5 and 8 hundredths when dark, minus 3 and 5 hundredths when light),
the text colors are the fixed dark/light pairs, and adjustLightness itself
adds amount times 255 to each parsed channel, rounds, and clamps to
[0, 255]. -/
theorem C6_theorem :
    (∀ html css t, extractTheme html css = .ok t →
      t.surfaceColor = adjustLightness t.bgColor (if t.isDark then 5 / 100 else -(3 / 100)) ∧
      t.elevatedColor = adjustLightness t.bgColor (if t.isDark then 8 / 100 else -(5 / 100)) ∧
      t.textColor = (if t.isDark then "#ffffff" else "#1f2937") ∧
      t.textSecondary = (if t.isDark then "#a1a1aa" else "#6b7280")) ∧
    (∀ hex amount r g b, getChannels hex = some (r, g, b) →
      getChannels (adjustLightness hex amount) =
        some ((min 255 (max 0 (jsRound ((r : ℚ) + 255 * amount)))).toNat,
          (min 255 (max 0 (jsRound ((g : ℚ) + 255 * amount)))).toNat,
          (min 255 (max 0 (jsRound ((b : ℚ) + 255 * amount)))).toNat)) := by
  constructor
  · intro html css t hok
    cases hbg : extractBackgroundColor (String.intercalate "\n" css) with
    | none =>
      simp only [extractTheme, hbg] at hok
      simp only [Except.ok.injEq] at hok
      subst hok
      simp
    | some bv =>
      cases bv with
      | protoObj k => simp [extractTheme, hbg] at hok
      | hexColor c =>
        simp only [extractTheme, hbg] at hok
        simp only [Except.ok.injEq] at hok
        subst hok
        refine ⟨?_, ?_, rfl, rfl⟩ <;>
          exact (apply_ite (adjustLightness c) _ _ _).symm
  · intro hex amount r g b h
    have hle := getChannels_le h
    unfold getChannels at h
    cases h1 : jsParseHex (sliceStr hex 1 3) <;> rw [h1] at h <;>
      cases h2 : jsParseHex (sliceStr hex 3 5) <;> rw [h2] at h <;>
        cases h3 : jsParseHex (sliceStr hex 5 7) <;> rw [h3] at h <;> simp at h
    obtain ⟨rfl, rfl, rfl⟩ := h
    have hcl : ∀ j : ℤ, (min 255 (max 0 j)).toNat ≤ 255 := by intro j; omega
    simp only [adjustLightness, h1, h2, h3, adjChannel]
    exact getChannels_hex7 (hcl _) (hcl _) (hcl _)

def emptyInputTheme : PortalTheme :=
  { primaryColor := "#0ea5e9"
    primaryHover := adjustLightness "#0ea5e9" (-(1 / 10))
    secondaryColor := "#10b981"
    bgColor := "#ffffff"
    surfaceColor := adjustLightness "#ffffff" (-(3 / 100))
    elevatedColor := adjustLightness "#ffffff" (-(5 / 100))
    textColor := "#1f2937"
    textSecondary := "#6b7280"
    borderColor := "#e5e7eb"
    fontFamily := "Inter, -apple-system, sans-serif"
    logoUrl := ""
    faviconUrl := ""
    isDark := false }

/-- C6, witness at the empty input. -/
theorem C6_witness :
    extractTheme "" [] = .ok emptyInputTheme ∧
      emptyInputTheme.surfaceColor =
        adjustLightness emptyInputTheme.bgColor
          (if emptyInputTheme.isDark then 5 / 100 else -(3 / 100)) :=
  ⟨by with_unfolding_all decide,
    (C6_theorem.1 "" [] emptyInputTheme (by with_unfolding_all decide)).1⟩

-- ─── Claim C7 ───────────────────────────────────────────────────

theorem lum_white : getLuminance "#ffffff" = some 1 := by with_unfolding_all decide

theorem getChannels_eq {hex : String} {r g b : Nat} (h : getChannels hex = some (r, g, b)) :
    jsParseHex (sliceStr hex 1 3) = some r ∧ jsParseHex (sliceStr hex 3 5) = some g ∧
      jsParseHex (sliceStr hex 5 7) = some b := by
  unfold getChannels at h
  cases e1 : jsParseHex (sliceStr hex 1 3) <;> rw [e1] at h <;>
    cases e2 : jsParseHex (sliceStr hex 3 5) <;> rw [e2] at h <;>
      cases e3 : jsParseHex (sliceStr hex 5 7) <;> rw [e3] at h <;> simp at h
  obtain ⟨rfl, rfl, rfl⟩ := h
  exact ⟨rfl, rfl, rfl⟩

/-- C7.  Luminance is the exact weighted channel sum on normalized channels,
always lands in [0, 1] when defined, is 1 at white and 0 at black, the dark
flag of every successfully extracted theme agrees with its background
luminance being below one half, and the two concrete backgrounds classify
dark and light as documented. -/
theorem C7_theorem :
    (∀ hex r g b, getChannels hex = some (r, g, b) →
      ∃ q, getLuminance hex = some q ∧
        q = (2126 / 10000 : ℚ) * ((r : ℚ) / 255) + (7152 / 10000 : ℚ) * ((g : ℚ) / 255)
          + (722 / 10000 : ℚ) * ((b : ℚ) / 255) ∧
        0 ≤ q ∧ q ≤ 1) ∧
    getLuminance "#ffffff" = some 1 ∧ getLuminance "#000000" = some 0 ∧
    (∀ html css t, extractTheme html css = .ok t →
      (t.isDark = true ↔ ∃ q, getLuminance t.bgColor = some q ∧ q < 1 / 2)) ∧
    (extractTheme "" ["body\x7bbackground:#0a0a0f;\x7d"]).map (fun t => t.isDark) = .ok true ∧
    (extractTheme "" ["body\x7bbackground:#ffffff;\x7d"]).map (fun t => t.isDark) = .ok false := by
  refine ⟨?_, lum_white, by with_unfolding_all decide, ?_,
    by with_unfolding_all decide, by with_unfolding_all decide⟩
  · intro hex r g b h
    have hle := getChannels_le h
    obtain ⟨h1, h2, h3⟩ := getChannels_eq h
    refine ⟨_, by unfold getLuminance; rw [h1, h2, h3], rfl, ?_, ?_⟩
    · positivity
    · have hr : (r : ℚ) ≤ 255 := by exact_mod_cast hle.1
      have hg : (g : ℚ) ≤ 255 := by exact_mod_cast hle.2.1
      have hb : (b : ℚ) ≤ 255 := by exact_mod_cast hle.2.2
      rw [show
          (2126 / 10000 : ℚ) * ((r : ℚ) / 255) + (7152 / 10000 : ℚ) * ((g : ℚ) / 255)
            + (722 / 10000 : ℚ) * ((b : ℚ) / 255) =
          (2126 * (r : ℚ) + 7152 * (g : ℚ) + 722 * (b : ℚ)) / 2550000 by ring]
      rw [div_le_one (by norm_num)]
      linarith
  · intro html css t hok
    cases hbg : extractBackgroundColor (String.intercalate "\n" css) with
    | none =>
      simp only [extractTheme, hbg] at hok
      simp only [Except.ok.injEq] at hok
      have hd : t.isDark = false := by rw [← hok]
      have hb : t.bgColor = "#ffffff" := by rw [← hok]; rfl
      rw [hd, hb, lum_white]
      constructor
      · intro hfalse
        simp at hfalse
      · rintro ⟨q, hq, hlt⟩
        simp only [Option.some.injEq] at hq
        subst hq
        norm_num at hlt
    | some bv =>
      cases bv with
      | protoObj k => simp [extractTheme, hbg] at hok
      | hexColor c =>
        simp only [extractTheme, hbg] at hok
        simp only [Except.ok.injEq] at hok
        have hd : t.isDark =
            (match getLuminance c with
              | some q => decide (q < 1 / 2)
              | none => false) := by rw [← hok]
        have hb : t.bgColor = c := by rw [← hok]
        rw [hd, hb]
        cases hq : getLuminance c with
        | none => simp
        | some q => simp [decide_eq_true_iff]

/-- C7, witness at white channels and the empty input. -/
theorem C7_witness :
    (getChannels "#ffffff" = some (255, 255, 255) ∧ extractTheme "" [] = .ok emptyInputTheme) ∧
      (∃ q, getLuminance "#ffffff" = some q ∧
        q = (2126 / 10000 : ℚ) * ((255 : ℚ) / 255) + (7152 / 10000 : ℚ) * ((255 : ℚ) / 255)
          + (722 / 10000 : ℚ) * ((255 : ℚ) / 255) ∧
        0 ≤ q ∧ q ≤ 1) ∧
      (emptyInputTheme.isDark = true ↔
        ∃ q, getLuminance emptyInputTheme.bgColor = some q ∧ q < 1 / 2) :=
  ⟨⟨by with_unfolding_all decide, by with_unfolding_all decide⟩,
    C7_theorem.1 "#ffffff" 255 255 255 (by with_unfolding_all decide),
    C7_theorem.2.2.2.1 "" [] emptyInputTheme (by with_unfolding_all decide)⟩

-- ─── Claim C10 ──────────────────────────────────────────────────

/-- C10.  When background extraction finds nothing the dark flag is false and
the returned background is white with the light-adjusted surface and
elevated colors; moreover extractTheme coincides on every input with the
variant whose dark fallback constant has been deleted, so the dark-default
branches are unreachable. -/
theorem C10_theorem :
    (∀ html css, extractTheme html css = extractThemeNoDark html css) ∧
    (∀ html css, extractBackgroundColor (String.intercalate "\n" css) = none →
      (extractTheme html css).map
          (fun t => (t.isDark, t.bgColor, t.surfaceColor, t.elevatedColor)) =
        .ok (false, "#ffffff", adjustLightness "#ffffff" (-(3 / 100)),
          adjustLightness "#ffffff" (-(5 / 100)))) := by
  constructor
  · intro html css
    cases hbg : extractBackgroundColor (String.intercalate "\n" css) with
    | none => simp [extractTheme, extractThemeNoDark, hbg]
    | some bv =>
      cases bv with
      | protoObj k => simp [extractTheme, extractThemeNoDark, hbg]
      | hexColor c => simp [extractTheme, extractThemeNoDark, hbg]
  · intro html css hbg
    simp [extractTheme, hbg, Except.map]

/-- C10, witness at the empty input. -/
theorem C10_witness :
    extractBackgroundColor (String.intercalate "\n" ([] : List String)) = none ∧
      (extractTheme "" []).map
          (fun t => (t.isDark, t.bgColor, t.surfaceColor, t.elevatedColor)) =
        .ok (false, "#ffffff", adjustLightness "#ffffff" (-(3 / 100)),
          adjustLightness "#ffffff" (-(5 / 100))) :=
  ⟨by decide, C10_theorem.2 "" [] (by decide)⟩

-- ─── Claim C5 ───────────────────────────────────────────────────

/-- C5, counterexample.  The claim lists only three conversion forms (direct
hex, rgb/rgba, named table) and demands null for every other captured value;
but the source also has an hsl/hsla branch: the captured value hsl(0, 100%,
50%) matches none of the three claimed forms yet converts to red. -/
theorem C5_counterexample :
    extractBackgroundColor "body\x7bbackground: hsl(0, 100%, 50%);\x7d" =
        some (.hexColor "#ff0000") ∧
      findHexIn ("hsl(0, 100%, 50%)".data.length + 1) "hsl(0, 100%, 50%)".data = none ∧
      findTripleIn matchRgbAt ("hsl(0, 100%, 50%)".data.length + 1)
        "hsl(0, 100%, 50%)".data = none ∧
      namedColors.find? (fun p => p.1 = lowerStr "hsl(0, 100%, 50%)") = none := by
  refine ⟨by with_unfolding_all decide, by decide, by decide, by decide⟩

/-- C5, amended.  Background extraction looks only inside the matched body
block; the captured value is converted by trying a direct hex match, else an
rgb/rgba match, else an hsl/hsla match, else the fixed named table (white,
black, red, blue, green, transparent mapped to white); every captured value
outside these four forms (and outside the two inherited object keys) yields
null, and a stylesheet with no matching body rule yields null. -/
theorem C5_amended :
    (∀ val : String,
      findHexIn (val.length + 1) val.data = none →
      findTripleIn matchRgbAt (val.length + 1) val.data = none →
      findTripleIn matchHslAt (val.length + 1) val.data = none →
      namedColors.find? (fun p => p.1 = lowerStr val) = none →
      lowerStr val ∉ protoKeys →
      cssValueToHex val = none) ∧
    extractBackgroundColor "body\x7bbackground:#abc;\x7d" = some (.hexColor "#aabbcc") ∧
    extractBackgroundColor "body\x7bbackground: rgb(10, 10, 15);\x7d" =
      some (.hexColor "#0a0a0f") ∧
    extractBackgroundColor "body\x7bbackground: white;\x7d" = some (.hexColor "#ffffff") ∧
    extractBackgroundColor "body\x7bbackground:transparent;\x7d" = some (.hexColor "#ffffff") ∧
    extractBackgroundColor "body\x7bbackground:fuchsia;\x7d" = none ∧
    extractBackgroundColor ".main\x7bbackground:#ff0000;\x7d" = none := by
  refine ⟨?_, by decide, by decide, by decide, by decide, by decide, by decide⟩
  intro val h1 h2 h3 h4 h5
  simp [cssValueToHex, h1, h2, h3, h4, h5]

/-- C5, witness for the amended theorem at the value fuchsia. -/
theorem C5_amended_witness :
    (findHexIn ("fuchsia".length + 1) "fuchsia".data = none ∧
      findTripleIn matchRgbAt ("fuchsia".length + 1) "fuchsia".data = none ∧
      findTripleIn matchHslAt ("fuchsia".length + 1) "fuchsia".data = none ∧
      namedColors.find? (fun p => p.1 = lowerStr "fuchsia") = none ∧
      lowerStr "fuchsia" ∉ protoKeys) ∧
      cssValueToHex "fuchsia" = none :=
  ⟨⟨by decide, by decide, by decide, by decide, by decide⟩,
    C5_amended.1 "fuchsia" (by decide) (by decide) (by decide) (by decide) (by decide)⟩

-- ─── Claim C8 ───────────────────────────────────────────────────

/-- The specification scenario for logo priority: an anchor image earlier in
document order, a header logo image later. -/
def logoDocEx : HtmlDoc :=
  toNodes
    [.el "body" []
      (toNodes
        [.el "a" [("href", "/")] (toNodes [.el "img" [("src", "x.png")] .nil]),
         .el "header" [] (toNodes [.el "img" [("src", "logo.png")] .nil])])]

/-- C8.  Logo extraction tries its six selectors in fixed priority order:
whenever the first selector (header image whose src contains logo) finds an
element with a nonempty src, that src is returned no matter what the other
selectors would find; on the specification document the header logo wins
over the earlier anchor image; when all six selectors fail the og:image
meta content is the fallback, and an empty document yields nothing. -/
theorem C8_theorem :
    (∀ (doc : HtmlDoc) (attrs : List (String × String)) (s : String),
      findElem logoSel1 doc = some attrs → getAttr attrs "src" = some s → s ≠ "" →
        extractLogoFromDoc doc = some s) ∧
    extractLogoFromDoc logoDocEx = some "logo.png" ∧
    (∀ doc : HtmlDoc,
      findElem logoSel1 doc = none → findElem logoSel2 doc = none →
      findElem logoSel3 doc = none → findElem logoSel4 doc = none →
      findElem logoSel5 doc = none → findElem logoSel6 doc = none →
        extractLogoFromDoc doc =
          (match findElem metaOgImage doc with
           | some attrs => getAttr attrs "content"
           | none => none)) ∧
    extractLogoFromDoc .nil = none := by
  refine ⟨?_, by decide, ?_, by decide⟩
  · intro doc attrs s h1 h2 h3
    simp [extractLogoFromDoc, trySel, h1, h2, h3]
  · intro doc h1 h2 h3 h4 h5 h6
    simp [extractLogoFromDoc, trySel, h1, h2, h3, h4, h5, h6]

/-- C8, witness on the specification document. -/
theorem C8_witness :
    (findElem logoSel1 logoDocEx = some [("src", "logo.png")] ∧
      getAttr [("src", "logo.png")] "src" = some "logo.png" ∧ "logo.png" ≠ "") ∧
      extractLogoFromDoc logoDocEx = some "logo.png" :=
  ⟨⟨by decide, by decide, by decide⟩,
    C8_theorem.1 logoDocEx [("src", "logo.png")] "logo.png" (by decide) (by decide) (by decide)⟩

-- ─── Tally and sort correctness (for claim C4) ──────────────────

def lookupT : List (String × Nat) → String → Option Nat
  | [], _ => none
  | (k, v) :: rest, k2 => if k = k2 then some v else lookupT rest k2

/-- The count a JS object read with a zero default sees. -/
def valT (l : List (String × Nat)) (k : String) : Nat := (lookupT l k).getD 0

theorem valT_bump_self (m : List (String × Nat)) (k : String) :
    valT (bump m k) k = valT m k + 1 := by
  induction m with
  | nil => simp [bump, valT, lookupT]
  | cons p m ih =>
    obtain ⟨k2, v⟩ := p
    by_cases hp : k2 = k
    · subst hp
      simp [bump, valT, lookupT]
    · have hb : bump ((k2, v) :: m) k = (k2, v) :: bump m k := by
        simp [bump, hp]
      rw [hb]
      show (lookupT ((k2, v) :: bump m k) k).getD 0 = (lookupT ((k2, v) :: m) k).getD 0 + 1
      simp only [lookupT, if_neg hp]
      exact ih

theorem valT_bump_ne (m : List (String × Nat)) (k k2 : String) (h : k2 ≠ k) :
    valT (bump m k) k2 = valT m k2 := by
  have hkk : ¬(k = k2) := fun he => h he.symm
  induction m with
  | nil =>
    show (lookupT [(k, 1)] k2).getD 0 = (lookupT [] k2).getD 0
    simp [lookupT, if_neg hkk]
  | cons p m ih =>
    obtain ⟨k3, v⟩ := p
    by_cases hp : k3 = k
    · subst hp
      have hb : bump ((k3, v) :: m) k3 = (k3, v + 1) :: m := by
        simp [bump]
      rw [hb]
      show (lookupT ((k3, v + 1) :: m) k2).getD 0 = (lookupT ((k3, v) :: m) k2).getD 0
      simp only [lookupT, if_neg hkk]
    · have hb : bump ((k3, v) :: m) k = (k3, v) :: bump m k := by
        simp [bump, hp]
      rw [hb]
      show (lookupT ((k3, v) :: bump m k) k2).getD 0 = (lookupT ((k3, v) :: m) k2).getD 0
      by_cases hq : k3 = k2
      · simp only [lookupT, if_pos hq]
      · simp only [lookupT, if_neg hq]
        exact ih

theorem valT_foldl (m : List String) : ∀ (acc : List (String × Nat)) (k : String),
    valT (m.foldl bump acc) k = valT acc k + m.count k := by
  induction m with
  | nil => intro acc k; simp
  | cons x m ih =>
    intro acc k
    rw [List.foldl_cons, ih]
    by_cases hx : k = x
    · subst hx
      rw [valT_bump_self]
      simp [List.count_cons]
      omega
    · rw [valT_bump_ne _ _ _ hx]
      simp [List.count_cons, hx]

theorem keys_bump (m : List (String × Nat)) (k : String) :
    (bump m k).map Prod.fst =
      (if k ∈ m.map Prod.fst then m.map Prod.fst else m.map Prod.fst ++ [k]) := by
  induction m with
  | nil => simp [bump]
  | cons p m ih =>
    obtain ⟨k2, v⟩ := p
    by_cases hp : k2 = k
    · subst hp
      simp [bump]
    · have hkk : ¬(k = k2) := fun he => hp he.symm
      have hb : bump ((k2, v) :: m) k = (k2, v) :: bump m k := by
        simp [bump, hp]
      rw [hb]
      simp only [List.map_cons, ih, List.mem_cons, hkk, false_or]
      by_cases hk : k ∈ m.map Prod.fst
      · simp [hk]
      · simp [hk]

theorem nodup_keys_bump {m : List (String × Nat)} {k : String}
    (h : (m.map Prod.fst).Nodup) : ((bump m k).map Prod.fst).Nodup := by
  rw [keys_bump]
  by_cases hk : k ∈ m.map Prod.fst
  · simpa [hk] using h
  · simp [hk, List.nodup_append, h]

theorem nodup_keys_foldl (m : List String) : ∀ acc : List (String × Nat),
    (acc.map Prod.fst).Nodup → ((m.foldl bump acc).map Prod.fst).Nodup := by
  induction m with
  | nil => intro acc h; simpa using h
  | cons x m ih =>
    intro acc h
    rw [List.foldl_cons]
    exact ih _ (nodup_keys_bump h)

theorem keys_foldl_sub (m : List String) : ∀ (acc : List (String × Nat)) (x : String),
    x ∈ (m.foldl bump acc).map Prod.fst → x ∈ acc.map Prod.fst ∨ x ∈ m := by
  induction m with
  | nil => intro acc x h; exact Or.inl h
  | cons y m ih =>
    intro acc x h
    rw [List.foldl_cons] at h
    rcases ih _ _ h with hacc | hm
    · rw [keys_bump] at hacc
      by_cases hy : y ∈ acc.map Prod.fst
      · rw [if_pos hy] at hacc
        exact Or.inl hacc
      · rw [if_neg hy] at hacc
        rcases List.mem_append.mp hacc with h1 | h2
        · exact Or.inl h1
        · simp at h2
          subst h2
          exact Or.inr (List.mem_cons_self _ _)
    · exact Or.inr (List.mem_cons_of_mem _ hm)

theorem lookupT_of_mem : ∀ {l : List (String × Nat)} {p : String × Nat},
    (l.map Prod.fst).Nodup → p ∈ l → lookupT l p.1 = some p.2 := by
  intro l
  induction l with
  | nil => intro p _ hp; simp at hp
  | cons q l ih =>
    intro p hn hp
    obtain ⟨kq, vq⟩ := q
    simp only [List.map_cons, List.nodup_cons] at hn
    rcases List.mem_cons.mp hp with rfl | hmem
    · simp [lookupT]
    · have hne : kq ≠ p.1 := by
        intro he
        exact hn.1 (he ▸ List.mem_map_of_mem Prod.fst hmem)
      simp only [lookupT, if_neg hne]
      exact ih hn.2 hmem

/-- Every entry of the tally records exactly the occurrence count of its key
in the scanned sequence. -/
theorem tally_counts {css : String} {p : String × Nat}
    (hp : p ∈ (minedColors css).foldl bump []) : p.2 = colorFreq css p.1 := by
  have hn : (((minedColors css).foldl bump []).map Prod.fst).Nodup :=
    nodup_keys_foldl _ [] (by simp)
  have hl := lookupT_of_mem hn hp
  have hval : valT ((minedColors css).foldl bump []) p.1 = p.2 := by
    simp [valT, hl]
  rw [valT_foldl _ [] p.1] at hval
  simpa [valT, lookupT, colorFreq] using hval.symm

theorem mem_insertDesc {x y : String × Nat} : ∀ {l : List (String × Nat)},
    y ∈ insertDesc x l ↔ y = x ∨ y ∈ l := by
  intro l
  induction l with
  | nil => simp [insertDesc]
  | cons z l ih =>
    by_cases hz : x.2 < z.2
    · simp only [insertDesc, if_pos hz, List.mem_cons, ih]
      tauto
    · simp [insertDesc, if_neg hz]

theorem perm_insertDesc (x : String × Nat) :
    ∀ l, List.Perm (insertDesc x l) (x :: l) := by
  intro l
  induction l with
  | nil => simp [insertDesc]
  | cons z l ih =>
    by_cases hz : x.2 < z.2
    · simp only [insertDesc, if_pos hz]
      exact (ih.cons z).trans (List.Perm.swap x z l)
    · simp only [insertDesc, if_neg hz]
      exact List.Perm.refl _

theorem perm_sortDesc : ∀ l : List (String × Nat), List.Perm (sortDesc l) l := by
  intro l
  induction l with
  | nil => exact List.Perm.refl _
  | cons x l ih => exact (perm_insertDesc x (sortDesc l)).trans (ih.cons x)

theorem pairwise_insertDesc {x : String × Nat} : ∀ {l : List (String × Nat)},
    l.Pairwise (fun a b => b.2 ≤ a.2) →
      (insertDesc x l).Pairwise (fun a b => b.2 ≤ a.2) := by
  intro l
  induction l with
  | nil => intro _; simp [insertDesc]
  | cons z l ih =>
    intro h
    rw [List.pairwise_cons] at h
    by_cases hz : x.2 < z.2
    · simp only [insertDesc, if_pos hz]
      rw [List.pairwise_cons]
      refine ⟨?_, ih h.2⟩
      intro y hy
      rcases mem_insertDesc.mp hy with rfl | hmem
      · exact le_of_lt hz
      · exact h.1 y hmem
    · simp only [insertDesc, if_neg hz]
      rw [List.pairwise_cons]
      refine ⟨?_, List.pairwise_cons.mpr h⟩
      intro y hy
      rcases List.mem_cons.mp hy with rfl | hmem
      · omega
      · exact le_trans (h.1 y hmem) (by omega)

theorem pairwise_sortDesc (l : List (String × Nat)) :
    (sortDesc l).Pairwise (fun a b => b.2 ≤ a.2) := by
  induction l with
  | nil => simp [sortDesc]
  | cons x l ih => exact pairwise_insertDesc ih

-- ─── Claim C4 ───────────────────────────────────────────────────

/-- C4, counterexample.  The claim says every scanner match is normalized to
6-digit lowercase hex; the 4-digit match of the scanner is returned
unchanged, so the mined list contains a non-6-digit color. -/
theorem C4_counterexample :
    analyzeColors "x\x7bcolor:#abcd\x7d" = ["#abcd"] ∧ isValidHex6 "#abcd" = false :=
  ⟨by decide, by decide⟩

/-- C4, amended.  Color mining scans hex, rgb/rgba and hsl/hsla notation,
normalizes matches (4-, 5- and 7-digit hex literals keeping their length),
discards a color exactly when the neutral test holds of it, tallies the
remaining occurrences, and returns at most five distinct colors in
descending frequency order; the ranking example returns red before green
and a no-match input returns the empty list. -/
theorem C4_amended :
    analyzeColors "a\x7bcolor:#ff0000\x7d b\x7bcolor:#ff0000\x7d c\x7bcolor:#00ff00\x7d" =
        ["#ff0000", "#00ff00"] ∧
    analyzeColors "" = [] ∧
    (∀ css : String,
      (analyzeColors css).length ≤ 5 ∧
      (analyzeColors css).Nodup ∧
      (analyzeColors css).Pairwise (fun a b => colorFreq css b ≤ colorFreq css a)) ∧
    (∀ css : String, ∀ c ∈ analyzeColors css,
      isNeutralColor c = false ∧ c ∈ minedColors css) := by
  refine ⟨by decide, by decide, ?_, ?_⟩
  · intro css
    refine ⟨?_, ?_, ?_⟩
    · simp only [analyzeColors, List.length_map, List.length_take]
      omega
    · have hkeys : ((((minedColors css).foldl bump [])).map Prod.fst).Nodup :=
        nodup_keys_foldl _ [] (by simp)
      have hperm : List.Perm ((sortDesc ((minedColors css).foldl bump [])).map Prod.fst)
          ((((minedColors css).foldl bump [])).map Prod.fst) :=
        (perm_sortDesc _).map Prod.fst
      have hsnodup : ((sortDesc ((minedColors css).foldl bump [])).map Prod.fst).Nodup :=
        hperm.nodup_iff.mpr hkeys
      show (((sortDesc ((minedColors css).foldl bump [])).take 5).map Prod.fst).Nodup
      rw [List.map_take]
      exact hsnodup.sublist (List.take_sublist _ _)
    · have hpw := pairwise_sortDesc ((minedColors css).foldl bump [])
      have hfreq : ∀ p ∈ sortDesc ((minedColors css).foldl bump []),
          p.2 = colorFreq css p.1 := by
        intro p hp
        exact tally_counts ((perm_sortDesc _).mem_iff.mp hp)
      have hpw2 : (sortDesc ((minedColors css).foldl bump [])).Pairwise
          (fun a b => colorFreq css b.1 ≤ colorFreq css a.1) := by
        refine hpw.imp_of_mem ?_
        intro a b ha hb hab
        rw [← hfreq a ha, ← hfreq b hb]
        exact hab
      have hpw3 := hpw2.sublist (List.take_sublist 5 _)
      exact List.pairwise_map.mpr hpw3
  · intro css c hc
    simp only [analyzeColors, List.mem_map] at hc
    obtain ⟨p, hp5, rfl⟩ := hc
    have hpT : p ∈ ((minedColors css).foldl bump []) :=
      (perm_sortDesc _).mem_iff.mp ((List.take_sublist 5 _).subset hp5)
    have hkey : p.1 ∈ (((minedColors css).foldl bump [])).map Prod.fst :=
      List.mem_map_of_mem Prod.fst hpT
    rcases keys_foldl_sub _ [] _ hkey with h0 | hm
    · simp at h0
    · refine ⟨?_, hm⟩
      unfold minedColors at hm
      rcases List.mem_filter.mp hm with ⟨-, hpred⟩
      simpa using hpred

/-- C4, witness for the amended theorem at the ranking example. -/
theorem C4_amended_witness :
    ("#ff0000" ∈ analyzeColors "a\x7bcolor:#ff0000\x7d b\x7bcolor:#ff0000\x7d c\x7bcolor:#00ff00\x7d") ∧
      isNeutralColor "#ff0000" = false ∧
      "#ff0000" ∈ minedColors "a\x7bcolor:#ff0000\x7d b\x7bcolor:#ff0000\x7d c\x7bcolor:#00ff00\x7d" :=
  ⟨by decide,
    (C4_amended.2.2.2 "a\x7bcolor:#ff0000\x7d b\x7bcolor:#ff0000\x7d c\x7bcolor:#00ff00\x7d" "#ff0000"
      (by decide)).1,
    (C4_amended.2.2.2 "a\x7bcolor:#ff0000\x7d b\x7bcolor:#ff0000\x7d c\x7bcolor:#00ff00\x7d" "#ff0000"
      (by decide)).2⟩
